import Mathlib

/-!
Shallow embedding of the asteroid-dodging environment in `main3.py`
(`AsteroidEnv`): the data model, `reset`, the per-tick helpers
(`_move_player`, `_move_asteroids`, `_shoot`, `_move_blasts`,
`_check_collisions`, `_check_blast_hits`, `_get_lidar`) and `step`.

Modelling conventions:
* Python floats are embedded as `ℚ` (the program only adds, subtracts,
  multiplies, divides and compares; no rounding behaviour is relied on).
* `math.hypot p q ≤ r` is embedded as `distLe`, the exact real condition
  `0 ≤ r ∧ p² + q² ≤ r²`; see `distLe_eq_sqrt_le`.
* `random.randint` draws inside `_new_asteroid` are an oracle
  `g : ℕ → Asteroid` consumed at successive indices; every function that
  may spawn threads an index `k`.
* `math.cos`/`math.sin` of the 24 ray angles are transcendental, so the
  direction table is a parameter `dirs : Fin LIDAR_RAYS → ℚ × ℚ`; the true
  table has one entry per ray and satisfies `dx² ≤ 1 ∧ dy² ≤ 1`.
* `pygame.key.get_pressed()` is a `Keys` record, `pygame.event.get()` a
  `List Event`.
* `list.remove` on a missing element raises `ValueError`; fallible code is
  embedded in `Option`, `none` meaning an uncaught exception escapes.
* The wall-clock fields `last_recharge` and `start_time` are set by `reset`
  and never read by any modelled operation, so they are omitted.
-/

unseal Rat.mul Rat.add Rat.sub Rat.inv Rat.ofScientific

namespace AsteroidGame

/-- Game constant `WIDTH = 800`. -/
def WIDTH : ℚ := 800

/-- Game constant `HEIGHT = 600`. -/
def HEIGHT : ℚ := 600

/-- Game constant `PLAYER_SPEED = 3`. -/
def PLAYER_SPEED : ℚ := 3

/-- Game constant `SIDE_SPEED = 4`. -/
def SIDE_SPEED : ℚ := 4

/-- Game constant `ASTEROID_COUNT = 8`. -/
def ASTEROID_COUNT : ℕ := 8

/-- Game constant `ASTEROID_SPEED = 2`. -/
def ASTEROID_SPEED : ℚ := 2

/-- Game constant `LIDAR_RAYS = 24`. -/
def LIDAR_RAYS : ℕ := 24

/-- Game constant `LIDAR_RANGE = 200`. -/
def LIDAR_RANGE : ℚ := 200

/-- Game constant `MAX_BLASTS = 5`. -/
def MAX_BLASTS : ℕ := 5

/-- Number of samples of the lidar march loop `range(0, LIDAR_RANGE, 5)`. -/
def lidarSteps : ℕ := 40

/-- The comparison `distance(p, q) <= r` from `main3.py`, where
`distance` is `math.hypot`: over the reals `√(dx² + dy²) ≤ r` holds iff
`0 ≤ r ∧ dx² + dy² ≤ r²`. -/
def distLe (px py qx qy r : ℚ) : Bool :=
  decide (0 ≤ r ∧ (px - qx) ^ 2 + (py - qy) ^ 2 ≤ r ^ 2)

/-- An asteroid dict: keys `x`, `y`, `radius`, `speed`. -/
structure Asteroid where
  x : ℚ
  y : ℚ
  radius : ℚ
  speed : ℚ
deriving DecidableEq, Repr

/-- A blast dict: keys `x`, `y`. -/
structure Blast where
  x : ℚ
  y : ℚ
deriving DecidableEq, Repr

/-- The mutable state of `AsteroidEnv` that the simulation reads. -/
structure Env where
  x : ℚ
  y : ℚ
  radius : ℚ
  blasts : ℕ
  score : ℚ
  alive : Bool
  asteroids : List Asteroid
  blasts_list : List Blast
deriving DecidableEq, Repr

/-- Oracle for successive `_new_asteroid()` results. -/
abbrev Spawn := ℕ → Asteroid

/-- Oracle for the 24 ray directions `(cos θ, sin θ)` of `_get_lidar`. -/
abbrev Dirs := Fin LIDAR_RAYS → ℚ × ℚ

/-- The directional key state read by `pygame.key.get_pressed()`. -/
structure Keys where
  left : Bool
  right : Bool
deriving DecidableEq, Repr

/-- The pygame events `step` inspects: `QUIT`, `KEYDOWN` of `K_SPACE`,
and anything else. -/
inductive Event where
  | quit
  | keydownSpace
  | other
deriving DecidableEq, Repr

/-- The info dict of a normal tick: `{"score": …, "alive": …}`. -/
structure Info where
  score : ℚ
  alive : Bool
deriving DecidableEq, Repr

/-- The quadruple returned by `step`; `obs = none` and `info = none` model
the `None` observation and the empty dict of the quit path. -/
structure StepOut where
  obs : Option (List ℚ)
  reward : ℚ
  done : Bool
  info : Option Info
deriving DecidableEq, Repr

/-- `np.clip(v, lo, hi)`. -/
def clip (v lo hi : ℚ) : ℚ := min hi (max v lo)

/-- `_move_player`: forward motion and vertical clamp first, then
sideways motion and horizontal clamp. -/
def move_player (keys : Keys) (st : Env) : Env :=
  let y := st.y - PLAYER_SPEED
  let y := clip y (HEIGHT * (1 / 2)) (HEIGHT * (3 / 4))
  let x := st.x
  let x := if keys.left then x - SIDE_SPEED else x
  let x := if keys.right then x + SIDE_SPEED else x
  let x := clip x (WIDTH / 2 - 150) (WIDTH / 2 + 150)
  { st with x := x, y := y }

/-- The list comprehension of `_move_asteroids`: keep `a` when
`a.y - a.radius ≤ HEIGHT`, otherwise substitute the next fresh spawn. -/
def move_asteroids_go (g : Spawn) : List Asteroid → ℕ → List Asteroid × ℕ
  | [], k => ([], k)
  | a :: rest, k =>
    if a.y - a.radius ≤ HEIGHT then
      let res := move_asteroids_go g rest k
      (a :: res.1, res.2)
    else
      let res := move_asteroids_go g rest (k + 1)
      (g k :: res.1, res.2)

/-- `_move_asteroids`: advance every asteroid by its speed, then replace
the ones whose `y - radius` exceeds `HEIGHT`. -/
def move_asteroids (g : Spawn) (st : Env) (k : ℕ) : Env × ℕ :=
  let moved := st.asteroids.map fun a => { a with y := a.y + a.speed }
  let res := move_asteroids_go g moved k
  ({ st with asteroids := res.1 }, res.2)

/-- `_shoot`: when charge is positive, decrement it and append one blast
at the player's position; otherwise do nothing. -/
def shoot (st : Env) : Env :=
  if st.blasts > 0 then
    { st with
      blasts := st.blasts - 1
      blasts_list := st.blasts_list ++ [⟨st.x, st.y⟩] }
  else st

/-- `_move_blasts`: every blast moves up by 7, then blasts with `y ≤ 0`
are dropped. -/
def move_blasts (st : Env) : Env :=
  let moved := st.blasts_list.map fun b => { b with y := b.y - 7 }
  { st with blasts_list := moved.filter fun b => decide (0 < b.y) }

/-- `_check_collisions`: some asteroid's center is within
`self.radius + a.radius` of the player. -/
def check_collisions (st : Env) : Bool :=
  st.asteroids.any fun a => distLe st.x st.y a.x a.y (st.radius + a.radius)

/-- The inner loop of `_check_blast_hits`: the first asteroid whose center
is within its own radius of the blast. -/
def first_hit (asteroids : List Asteroid) (b : Blast) : Option Asteroid :=
  asteroids.find? fun a => distLe b.x b.y a.x a.y a.radius

/-- The removal loop of `_check_blast_hits`: `asteroids.remove(h)` then
`asteroids.append(new)` for each recorded hit. `list.remove` removes the
first `==`-equal element and raises `ValueError` when none exists, so a
hit no longer present yields `none`. -/
def remove_and_respawn (g : Spawn) :
    List Asteroid → List Asteroid → ℕ → Option (List Asteroid × ℕ)
  | [], l, k => some (l, k)
  | h :: hs, l, k =>
    if h ∈ l then remove_and_respawn g hs (l.erase h ++ [g k]) (k + 1)
    else none

/-- `_check_blast_hits`: record, for each blast, the first asteroid in
range, then remove and respawn each recorded hit. The blast list itself
is not touched. -/
def check_blast_hits (g : Spawn) (st : Env) (k : ℕ) : Option (Env × ℕ) :=
  let hits := st.blasts_list.filterMap (first_hit st.asteroids)
  match remove_and_respawn g hits st.asteroids k with
  | some (l, k') => some ({ st with asteroids := l }, k')
  | none => none

/-- The march loop of one lidar ray: sample points `r = 0, 5, …, 195`
from the player along `(dx, dy)`; stop at the first point out of bounds
or inside an asteroid, else report `LIDAR_RANGE`. -/
def ray_march (st : Env) (dx dy : ℚ) : ℕ → ℕ → ℚ
  | 0, _ => LIDAR_RANGE
  | fuel + 1, i =>
    let r : ℚ := 5 * i
    let rx := st.x + dx * r
    let ry := st.y + dy * r
    if rx < 0 ∨ WIDTH ≤ rx ∨ ry < 0 ∨ HEIGHT ≤ ry then r
    else if st.asteroids.any fun a => distLe rx ry a.x a.y a.radius then r
    else ray_march st dx dy fuel (i + 1)

/-- The distance recorded for one ray of `_get_lidar`. -/
def ray_dist (st : Env) (d : ℚ × ℚ) : ℚ :=
  ray_march st d.1 d.2 lidarSteps 0

/-- `_get_lidar`: one normalized distance per ray, in angle order. -/
def get_lidar (dirs : Dirs) (st : Env) : List ℚ :=
  (List.finRange LIDAR_RAYS).map fun i => ray_dist st (dirs i) / LIDAR_RANGE

/-- `_get_observation` simply returns the lidar vector. -/
def get_observation (dirs : Dirs) (st : Env) : List ℚ :=
  get_lidar dirs st

/-- `reset`: recenter the player, refill charge, zero the score, spawn
`ASTEROID_COUNT` fresh asteroids, clear the blasts, return the
observation. `WIDTH // 2 = WIDTH / 2` and `HEIGHT * 0.75 = HEIGHT * (3/4)`
exactly at these constants. -/
def reset (g : Spawn) (dirs : Dirs) (k : ℕ) : List ℚ × Env × ℕ :=
  let st : Env :=
    { x := WIDTH / 2
      y := HEIGHT * (3 / 4)
      radius := 15
      blasts := MAX_BLASTS
      score := 0
      alive := true
      asteroids := (List.range ASTEROID_COUNT).map fun i => g (k + i)
      blasts_list := [] }
  (get_observation dirs st, st, k + ASTEROID_COUNT)

/-- The event loop at the top of `step`: process events in queue order,
returning immediately when a `QUIT` is seen, shooting on each space
keydown seen before that. -/
def handle_events : List Event → Env → Env × Bool
  | [], st => (st, false)
  | e :: rest, st =>
    match e with
    | .quit => (st, true)
    | .keydownSpace => handle_events rest (shoot st)
    | .other => handle_events rest st

/-- `step(action)`: the per-tick update. The `action` argument exists for
interface compatibility and is never read. `none` models the uncaught
`ValueError` that `_check_blast_hits` can raise. -/
def step (g : Spawn) (dirs : Dirs) (action : Option ℕ) (keys : Keys)
    (events : List Event) (st : Env) (k : ℕ) :
    Option (StepOut × Env × ℕ) :=
  let hres := handle_events events st
  if hres.2 then some (⟨none, 0, true, none⟩, hres.1, k)
  else
    let st2 := move_player keys hres.1
    let ares := move_asteroids g st2 k
    let st4 := move_blasts ares.1
    match check_blast_hits g st4 ares.2 with
    | none => none
    | some (st5, k5) =>
      let done := check_collisions st5
      let reward : ℚ := if done then -10 else 1 / 10
      let st6 := { st5 with score := st5.score + reward }
      let obs := get_observation dirs st6
      some (⟨some obs, reward, done, some ⟨st6.score, !done⟩⟩, st6, k5)

/-- Justification of the `distLe` embedding: it is exactly the real
condition `√((px-qx)² + (py-qy)²) ≤ r` that `math.hypot` computes. -/
lemma distLe_eq_sqrt_le (px py qx qy r : ℚ) :
    distLe px py qx qy r = true ↔
      Real.sqrt (((px : ℝ) - qx) ^ 2 + ((py : ℝ) - qy) ^ 2) ≤ (r : ℝ) := by
  rw [distLe, decide_eq_true_iff]
  constructor
  · rintro ⟨hr, hle⟩
    have h2 : ((px : ℝ) - qx) ^ 2 + ((py : ℝ) - qy) ^ 2 ≤ (r : ℝ) ^ 2 := by
      exact_mod_cast hle
    have hr' : (0 : ℝ) ≤ (r : ℝ) := by exact_mod_cast hr
    calc Real.sqrt (((px : ℝ) - qx) ^ 2 + ((py : ℝ) - qy) ^ 2)
        ≤ Real.sqrt ((r : ℝ) ^ 2) := Real.sqrt_le_sqrt h2
      _ = (r : ℝ) := Real.sqrt_sq hr'
  · intro h
    have hnn : (0 : ℝ) ≤ ((px : ℝ) - qx) ^ 2 + ((py : ℝ) - qy) ^ 2 := by positivity
    have hr' : (0 : ℝ) ≤ (r : ℝ) := le_trans (Real.sqrt_nonneg _) h
    refine ⟨by exact_mod_cast hr', ?_⟩
    have hsq : ((px : ℝ) - qx) ^ 2 + ((py : ℝ) - qy) ^ 2 ≤ (r : ℝ) ^ 2 := by
      calc ((px : ℝ) - qx) ^ 2 + ((py : ℝ) - qy) ^ 2
          = Real.sqrt (((px : ℝ) - qx) ^ 2 + ((py : ℝ) - qy) ^ 2) ^ 2 := by
            rw [Real.sq_sqrt hnn]
        _ ≤ (r : ℝ) ^ 2 := by
            apply pow_le_pow_left₀ (Real.sqrt_nonneg _) h
    exact_mod_cast hsq

/-! Field-preservation lemmas for the per-tick helpers. -/

lemma shoot_fields (st : Env) :
    (shoot st).x = st.x ∧ (shoot st).y = st.y ∧ (shoot st).radius = st.radius ∧
      (shoot st).score = st.score ∧ (shoot st).alive = st.alive ∧
      (shoot st).asteroids = st.asteroids ∧ (shoot st).blasts ≤ st.blasts ∧
      ∃ t, (shoot st).blasts_list = st.blasts_list ++ t := by
  unfold shoot
  split
  · exact ⟨rfl, rfl, rfl, rfl, rfl, rfl, Nat.sub_le _ _, ⟨_, rfl⟩⟩
  · exact ⟨rfl, rfl, rfl, rfl, rfl, rfl, le_refl _, ⟨[], (List.append_nil _).symm⟩⟩

lemma handle_events_fields (events : List Event) (st : Env) :
    (handle_events events st).1.x = st.x ∧ (handle_events events st).1.y = st.y ∧
      (handle_events events st).1.radius = st.radius ∧
      (handle_events events st).1.score = st.score ∧
      (handle_events events st).1.alive = st.alive ∧
      (handle_events events st).1.asteroids = st.asteroids ∧
      (handle_events events st).1.blasts ≤ st.blasts ∧
      ∃ t, (handle_events events st).1.blasts_list = st.blasts_list ++ t := by
  induction events generalizing st with
  | nil =>
    exact ⟨rfl, rfl, rfl, rfl, rfl, rfl, le_refl _, ⟨[], (List.append_nil _).symm⟩⟩
  | cons e rest ih =>
    cases e with
    | quit =>
      exact ⟨rfl, rfl, rfl, rfl, rfl, rfl, le_refl _, ⟨[], (List.append_nil _).symm⟩⟩
    | keydownSpace =>
      obtain ⟨hx, hy, hr, hs, ha, hast, hb, t, ht⟩ := ih (shoot st)
      obtain ⟨gx, gy, gr, gs, ga, gast, gb, u, hu⟩ := shoot_fields st
      refine ⟨hx.trans gx, hy.trans gy, hr.trans gr, hs.trans gs, ha.trans ga,
        hast.trans gast, le_trans hb gb, u ++ t, ?_⟩
      rw [show handle_events (Event.keydownSpace :: rest) st
            = handle_events rest (shoot st) from rfl] at *
      rw [ht, hu, List.append_assoc]
    | other =>
      exact ih st

lemma handle_events_quit_mem (events : List Event) (st : Env)
    (h : Event.quit ∈ events) : (handle_events events st).2 = true := by
  induction events generalizing st with
  | nil => cases h
  | cons e rest ih =>
    cases e with
    | quit => rfl
    | keydownSpace =>
      have : Event.quit ∈ rest := by
        rcases List.mem_cons.mp h with h1 | h1
        · cases h1
        · exact h1
      exact ih (shoot st) this
    | other =>
      have : Event.quit ∈ rest := by
        rcases List.mem_cons.mp h with h1 | h1
        · cases h1
        · exact h1
      exact ih st this

lemma clip_bounds (v lo hi : ℚ) (h : lo ≤ hi) :
    lo ≤ clip v lo hi ∧ clip v lo hi ≤ hi :=
  ⟨le_min h (le_max_right _ _), min_le_left _ _⟩

lemma move_player_fields (keys : Keys) (st : Env) :
    (move_player keys st).radius = st.radius ∧
      (move_player keys st).blasts = st.blasts ∧
      (move_player keys st).score = st.score ∧
      (move_player keys st).alive = st.alive ∧
      (move_player keys st).asteroids = st.asteroids ∧
      (move_player keys st).blasts_list = st.blasts_list :=
  ⟨rfl, rfl, rfl, rfl, rfl, rfl⟩

lemma move_player_y (keys : Keys) (st : Env) :
    (move_player keys st).y
      = clip (st.y - PLAYER_SPEED) (HEIGHT * (1 / 2)) (HEIGHT * (3 / 4)) := rfl

lemma move_player_x_bounds (keys : Keys) (st : Env) :
    WIDTH / 2 - 150 ≤ (move_player keys st).x ∧
      (move_player keys st).x ≤ WIDTH / 2 + 150 :=
  clip_bounds _ _ _ (by norm_num [WIDTH])

lemma move_player_y_bounds (keys : Keys) (st : Env) :
    HEIGHT * (1 / 2) ≤ (move_player keys st).y ∧
      (move_player keys st).y ≤ HEIGHT * (3 / 4) := by
  rw [move_player_y]
  exact clip_bounds _ _ _ (by norm_num [HEIGHT])

lemma move_asteroids_go_length (g : Spawn) :
    ∀ (l : List Asteroid) (k : ℕ),
      ((move_asteroids_go g l k).1).length = l.length := by
  intro l
  induction l with
  | nil => intro k; rfl
  | cons a rest ih =>
    intro k
    unfold move_asteroids_go
    split
    · simpa using ih k
    · simpa using ih (k + 1)

lemma move_asteroids_fields (g : Spawn) (st : Env) (k : ℕ) :
    (move_asteroids g st k).1.x = st.x ∧ (move_asteroids g st k).1.y = st.y ∧
      (move_asteroids g st k).1.radius = st.radius ∧
      (move_asteroids g st k).1.blasts = st.blasts ∧
      (move_asteroids g st k).1.score = st.score ∧
      (move_asteroids g st k).1.alive = st.alive ∧
      (move_asteroids g st k).1.blasts_list = st.blasts_list ∧
      (move_asteroids g st k).1.asteroids.length = st.asteroids.length := by
  refine ⟨rfl, rfl, rfl, rfl, rfl, rfl, rfl, ?_⟩
  show (move_asteroids_go g
      (st.asteroids.map fun a => { a with y := a.y + a.speed }) k).1.length
    = st.asteroids.length
  rw [move_asteroids_go_length]
  simp

lemma move_blasts_fields (st : Env) :
    (move_blasts st).x = st.x ∧ (move_blasts st).y = st.y ∧
      (move_blasts st).radius = st.radius ∧
      (move_blasts st).blasts = st.blasts ∧
      (move_blasts st).score = st.score ∧
      (move_blasts st).alive = st.alive ∧
      (move_blasts st).asteroids = st.asteroids :=
  ⟨rfl, rfl, rfl, rfl, rfl, rfl, rfl⟩

lemma remove_and_respawn_length (g : Spawn) :
    ∀ (hs l : List Asteroid) (k : ℕ) (l' : List Asteroid) (k' : ℕ),
      remove_and_respawn g hs l k = some (l', k') → l'.length = l.length := by
  intro hs
  induction hs with
  | nil =>
    intro l k l' k' h
    unfold remove_and_respawn at h
    injection h with h
    injection h with h1 h2
    rw [← h1]
  | cons a rest ih =>
    intro l k l' k' h
    unfold remove_and_respawn at h
    split at h
    · have hmem : a ∈ l := by assumption
      have := ih (l.erase a ++ [g k]) (k + 1) l' k' h
      rw [this, List.length_append, List.length_erase_of_mem hmem]
      have hpos : 1 ≤ l.length := List.length_pos.mpr (List.ne_nil_of_mem hmem)
      simp
      omega
    · cases h

lemma check_blast_hits_fields (g : Spawn) (st : Env) (k : ℕ) (st' : Env)
    (k' : ℕ) (h : check_blast_hits g st k = some (st', k')) :
    st'.x = st.x ∧ st'.y = st.y ∧ st'.radius = st.radius ∧
      st'.blasts = st.blasts ∧ st'.score = st.score ∧ st'.alive = st.alive ∧
      st'.blasts_list = st.blasts_list ∧
      st'.asteroids.length = st.asteroids.length := by
  unfold check_blast_hits at h
  rcases hrr : remove_and_respawn g
      (st.blasts_list.filterMap (first_hit st.asteroids)) st.asteroids k
    with _ | ⟨l, k2⟩
  · simp only [hrr] at h
    cases h
  · simp only [hrr, Option.some.injEq, Prod.mk.injEq] at h
    obtain ⟨h1, h2⟩ := h
    subst h1
    refine ⟨rfl, rfl, rfl, rfl, rfl, rfl, rfl, ?_⟩
    exact remove_and_respawn_length g _ _ _ _ _ hrr

lemma handle_events_no_quit (events : List Event) (st : Env)
    (h : Event.quit ∉ events) : (handle_events events st).2 = false := by
  induction events generalizing st with
  | nil => rfl
  | cons e rest ih =>
    cases e with
    | quit => exact absurd (List.mem_cons_self _ _) h
    | keydownSpace =>
      exact ih (shoot st) fun hm => h (List.mem_cons_of_mem _ hm)
    | other =>
      exact ih st fun hm => h (List.mem_cons_of_mem _ hm)

lemma step_quit (g : Spawn) (dirs : Dirs) (a : Option ℕ) (keys : Keys)
    (events : List Event) (st : Env) (k : ℕ) (hq : Event.quit ∈ events) :
    step g dirs a keys events st k
      = some (⟨none, 0, true, none⟩, (handle_events events st).1, k) := by
  unfold step
  simp [handle_events_quit_mem _ _ hq]

lemma step_no_quit_inv (g : Spawn) (dirs : Dirs) (a : Option ℕ) (keys : Keys)
    (events : List Event) (st : Env) (k : ℕ) (out : StepOut) (st' : Env)
    (k' : ℕ) (hq : Event.quit ∉ events)
    (h : step g dirs a keys events st k = some (out, st', k')) :
    ∃ st5 k5,
      check_blast_hits g
          (move_blasts
            (move_asteroids g (move_player keys (handle_events events st).1) k).1)
          (move_asteroids g (move_player keys (handle_events events st).1) k).2
        = some (st5, k5) ∧
      out.done = check_collisions st5 ∧
      out.reward = (if check_collisions st5 then (-10 : ℚ) else 1 / 10) ∧
      st' = { st5 with score := st5.score + out.reward } ∧
      k' = k5 ∧
      out.obs = some (get_observation dirs st') ∧
      out.info = some ⟨st'.score, !out.done⟩ := by
  unfold step at h
  simp only [handle_events_no_quit _ _ hq, Bool.false_eq_true, if_false] at h
  rcases hcb : check_blast_hits g
      (move_blasts
        (move_asteroids g (move_player keys (handle_events events st).1) k).1)
      (move_asteroids g (move_player keys (handle_events events st).1) k).2
    with _ | ⟨st5, k5⟩
  · simp only [hcb] at h
    cases h
  · simp only [hcb, Option.some.injEq, Prod.mk.injEq] at h
    obtain ⟨hout, hst, hk⟩ := h
    subst hout hst hk
    exact ⟨st5, k5, rfl, rfl, rfl, rfl, rfl, rfl, rfl⟩

/-- Concrete spawn oracle: every fresh asteroid appears far above the play
area, away from everything. -/
def gFar : Spawn := fun _ => ⟨50, -300, 20, 2⟩

/-- Concrete degenerate ray-direction table (all rays sample in place). -/
def dirs0 : Dirs := fun _ => (0, 0)

/-- Concrete quiet state: player at the reset position, no asteroids, no
blasts in flight. -/
def stBase : Env :=
  { x := 400, y := 450, radius := 15, blasts := 5, score := 0, alive := true
    asteroids := [], blasts_list := [] }

/-- C7: after `reset` and after every completed `step`, the player's x is
within [250, 550] and its y within [300, 450]; inside a tick the forward
(vertical) move is applied and clamped before the horizontal move. -/
theorem c7_position_bounds (g : Spawn) (dirs : Dirs) (a : Option ℕ)
    (keys : Keys) (events : List Event) (st : Env) (k : ℕ) (out : StepOut)
    (st' : Env) (k' : ℕ)
    (hx : 250 ≤ st.x ∧ st.x ≤ 550) (hy : 300 ≤ st.y ∧ st.y ≤ 450)
    (hstep : step g dirs a keys events st k = some (out, st', k')) :
    ((reset g dirs k).2.1.x = 400 ∧ (reset g dirs k).2.1.y = 450) ∧
      (250 ≤ st'.x ∧ st'.x ≤ 550 ∧ 300 ≤ st'.y ∧ st'.y ≤ 450) ∧
      (move_player keys st).y
        = clip (st.y - PLAYER_SPEED) (HEIGHT * (1 / 2)) (HEIGHT * (3 / 4)) := by
  refine ⟨⟨by norm_num [reset, WIDTH, HEIGHT], by norm_num [reset, HEIGHT]⟩,
    ?_, rfl⟩
  by_cases hq : Event.quit ∈ events
  · rw [step_quit g dirs a keys events st k hq] at hstep
    simp only [Option.some.injEq, Prod.mk.injEq] at hstep
    obtain ⟨-, hst, -⟩ := hstep
    obtain ⟨hex, hey, -, -, -, -, -, -⟩ := handle_events_fields events st
    rw [← hst, hex, hey]
    exact ⟨hx.1, hx.2, hy.1, hy.2⟩
  · obtain ⟨st5, k5, hcb, hdone, hrew, hst', hk', hobs, hinfo⟩ :=
      step_no_quit_inv g dirs a keys events st k out st' k' hq hstep
    obtain ⟨h5x, h5y, -, -, -, -, -, -⟩ := check_blast_hits_fields _ _ _ _ _ hcb
    obtain ⟨hbx, hby, -, -, -, -, -⟩ := move_blasts_fields
      (move_asteroids g (move_player keys (handle_events events st).1) k).1
    obtain ⟨hax, hay, -, -, -, -, -, -⟩ := move_asteroids_fields g
      (move_player keys (handle_events events st).1) k
    have hxeq : st'.x = (move_player keys (handle_events events st).1).x := by
      rw [hst']
      show st5.x = _
      rw [h5x, hbx, hax]
    have hyeq : st'.y = (move_player keys (handle_events events st).1).y := by
      rw [hst']
      show st5.y = _
      rw [h5y, hby, hay]
    obtain ⟨hxl, hxr⟩ := move_player_x_bounds keys (handle_events events st).1
    obtain ⟨hyl, hyr⟩ := move_player_y_bounds keys (handle_events events st).1
    rw [hxeq, hyeq]
    norm_num [WIDTH, HEIGHT] at hxl hxr hyl hyr ⊢
    exact ⟨hxl, hxr, hyl, hyr⟩

/-- The output record of `step gFar dirs0 none ⟨false, false⟩ [] stBase 0`. -/
def outBase : StepOut :=
  ⟨some (List.replicate 24 1), 1 / 10, false, some ⟨1 / 10, true⟩⟩

/-- The state after `step gFar dirs0 none ⟨false, false⟩ [] stBase 0`. -/
def stAfter : Env :=
  { x := 400, y := 447, radius := 15, blasts := 5, score := 1 / 10
    alive := true, asteroids := [], blasts_list := [] }

/-- Evaluation of one concrete quiet tick, shared by the witnesses. -/
lemma stepBase_eval :
    step gFar dirs0 none ⟨false, false⟩ [] stBase 0
      = some (outBase, stAfter, 0) := by
  decide

/-- Witness for C7 at a concrete quiet tick. -/
theorem c7_position_bounds_witness :
    250 ≤ stAfter.x ∧ stAfter.x ≤ 550 ∧ 300 ≤ stAfter.y ∧ stAfter.y ≤ 450 :=
  (c7_position_bounds gFar dirs0 none ⟨false, false⟩ [] stBase 0 outBase
    stAfter 0 (by decide) (by decide) stepBase_eval).2.1

/-- C8: projectile charge stays within [0, MAX_BLASTS] — `reset` refills it
to MAX_BLASTS, a completed `step` never raises it above MAX_BLASTS (it is a
natural number, hence never negative), a shoot request at positive charge
decrements it by one and appends exactly one blast at the player's current
position, and a shoot request at zero charge is a no-op with no error and
no effect on the score. -/
theorem c8_charge_invariant (g : Spawn) (dirs : Dirs) (a : Option ℕ)
    (keys : Keys) (events : List Event) (st : Env) (k : ℕ) (out : StepOut)
    (st' : Env) (k' : ℕ)
    (hmax : st.blasts ≤ MAX_BLASTS)
    (hstep : step g dirs a keys events st k = some (out, st', k')) :
    (reset g dirs k).2.1.blasts = MAX_BLASTS ∧
      st'.blasts ≤ MAX_BLASTS ∧
      (∀ s : Env, s.blasts = 0 → shoot s = s) ∧
      (∀ s : Env, 0 < s.blasts →
        (shoot s).blasts = s.blasts - 1 ∧
        (shoot s).blasts_list = s.blasts_list ++ [⟨s.x, s.y⟩] ∧
        (shoot s).score = s.score) := by
  refine ⟨rfl, ?_, ?_, ?_⟩
  · by_cases hq : Event.quit ∈ events
    · rw [step_quit g dirs a keys events st k hq] at hstep
      simp only [Option.some.injEq, Prod.mk.injEq] at hstep
      obtain ⟨-, hst, -⟩ := hstep
      obtain ⟨-, -, -, -, -, -, hble, -⟩ := handle_events_fields events st
      rw [← hst]
      exact le_trans hble hmax
    · obtain ⟨st5, k5, hcb, -, -, hst', -, -, -⟩ :=
        step_no_quit_inv g dirs a keys events st k out st' k' hq hstep
      obtain ⟨-, -, -, h5b, -, -, -, -⟩ := check_blast_hits_fields _ _ _ _ _ hcb
      obtain ⟨-, -, -, hbb, -, -, -⟩ := move_blasts_fields
        (move_asteroids g (move_player keys (handle_events events st).1) k).1
      obtain ⟨-, -, -, hab, -, -, -, -⟩ := move_asteroids_fields g
        (move_player keys (handle_events events st).1) k
      obtain ⟨-, -, -, -, -, -, hble, -⟩ := handle_events_fields events st
      have hfin : st'.blasts = st5.blasts := by rw [hst']
      rw [hfin, h5b, hbb, hab]
      exact le_trans hble hmax
  · intro s hs
    unfold shoot
    simp [hs]
  · intro s hs
    unfold shoot
    rw [if_pos hs]
    exact ⟨rfl, rfl, rfl⟩

/-- Witness for C8 at a concrete quiet tick. -/
theorem c8_charge_invariant_witness : stAfter.blasts ≤ MAX_BLASTS :=
  (c8_charge_invariant gFar dirs0 none ⟨false, false⟩ [] stBase 0 outBase
    stAfter 0 (by decide) stepBase_eval).2.1

/-- C2 (amended): a quit signal anywhere in the event queue makes `step`
return the terminal quadruple — `None` observation, reward exactly 0,
done, empty info — with no player movement, no obstacle update, no
projectile movement and no score change in that tick; however, shoot
events that precede the quit signal in the queue are still processed, so
the charge may decrease and projectiles may be appended before the
short-circuit. -/
theorem c2_quit_terminal (g : Spawn) (dirs : Dirs) (a : Option ℕ)
    (keys : Keys) (events : List Event) (st : Env) (k : ℕ)
    (hq : Event.quit ∈ events) :
    ∃ st',
      step g dirs a keys events st k = some (⟨none, 0, true, none⟩, st', k) ∧
      st'.x = st.x ∧ st'.y = st.y ∧ st'.score = st.score ∧
      st'.asteroids = st.asteroids ∧ st'.blasts ≤ st.blasts ∧
      ∃ t, st'.blasts_list = st.blasts_list ++ t := by
  refine ⟨(handle_events events st).1,
    step_quit g dirs a keys events st k hq, ?_⟩
  obtain ⟨hx, hy, -, hs, -, hast, hb, t, ht⟩ := handle_events_fields events st
  exact ⟨hx, hy, hs, hast, hb, t, ht⟩

/-- Witness for C2 (amended) at a concrete quit tick. -/
theorem c2_quit_terminal_witness :
    ∃ st',
      step gFar dirs0 none ⟨false, false⟩ [Event.quit] stBase 0
        = some (⟨none, 0, true, none⟩, st', 0) ∧
      st'.x = stBase.x ∧ st'.y = stBase.y ∧ st'.score = stBase.score ∧
      st'.asteroids = stBase.asteroids ∧ st'.blasts ≤ stBase.blasts ∧
      ∃ t, st'.blasts_list = stBase.blasts_list ++ t :=
  c2_quit_terminal gFar dirs0 none ⟨false, false⟩ [Event.quit] stBase 0
    (by decide)

/-- Counterexample to C2 as stated: with the event queue
`[KEYDOWN K_SPACE, QUIT]` the quit signal is in the queue and `step`
returns the terminal quadruple, yet the shoot was processed first — the
charge drops from 5 to 4 and a projectile is appended — so the quit check
does not precede every mutation of world state. -/
theorem c2_counterexample :
    step gFar dirs0 none ⟨false, false⟩ [Event.keydownSpace, Event.quit]
        stBase 0
      = some (⟨none, 0, true, none⟩,
          { stBase with blasts := 4, blasts_list := [⟨400, 450⟩] }, 0) ∧
      stBase.blasts = 5 ∧ stBase.blasts_list = [] :=
  ⟨by decide, rfl, rfl⟩

/-- Lower and upper bound of the value of the lidar march loop: every
recorded sample distance `5·i` stays within `[0, LIDAR_RANGE]`. -/
lemma ray_march_bounds (st : Env) (dx dy : ℚ) :
    ∀ fuel i, fuel + i ≤ lidarSteps →
      0 ≤ ray_march st dx dy fuel i ∧ ray_march st dx dy fuel i ≤ LIDAR_RANGE := by
  intro fuel
  induction fuel with
  | zero =>
    intro i h
    unfold ray_march
    norm_num [LIDAR_RANGE]
  | succ f ih =>
    intro i h
    have hi : (i : ℚ) ≤ 39 := by
      have : i ≤ 39 := by
        have := h
        unfold lidarSteps at this
        omega
      exact_mod_cast this
    have hmain : ray_march st dx dy (f + 1) i =
        (if st.x + dx * (5 * i) < 0 ∨ WIDTH ≤ st.x + dx * (5 * i) ∨
            st.y + dy * (5 * i) < 0 ∨ HEIGHT ≤ st.y + dy * (5 * i) then
          (5 * i : ℚ)
        else if st.asteroids.any fun ast =>
            distLe (st.x + dx * (5 * i)) (st.y + dy * (5 * i))
              ast.x ast.y ast.radius then
          (5 * i : ℚ)
        else ray_march st dx dy f (i + 1)) := rfl
    rw [hmain]
    split
    · constructor
      · positivity
      · unfold LIDAR_RANGE
        linarith
    · split
      · constructor
        · positivity
        · unfold LIDAR_RANGE
          linarith
      · exact ih (i + 1) (by omega)

lemma ray_dist_bounds (st : Env) (d : ℚ × ℚ) :
    0 ≤ ray_dist st d ∧ ray_dist st d ≤ LIDAR_RANGE :=
  ray_march_bounds st d.1 d.2 lidarSteps 0 (by norm_num)

lemma get_lidar_shape (dirs : Dirs) (st : Env) :
    (get_lidar dirs st).length = LIDAR_RAYS ∧
      ∀ v ∈ get_lidar dirs st, 0 ≤ v ∧ v ≤ 1 := by
  constructor
  · simp [get_lidar]
  · intro v hv
    simp only [get_lidar, List.mem_map] at hv
    obtain ⟨i, -, rfl⟩ := hv
    obtain ⟨h0, h1⟩ := ray_dist_bounds st (dirs i)
    constructor
    · apply div_nonneg h0
      norm_num [LIDAR_RANGE]
    · rw [div_le_one (by norm_num [LIDAR_RANGE])]
      exact h1

/-- C5 (amended): the observation returned by `reset`, and the observation
carried by the normal return path of `step`, is an ordered sequence of
exactly LIDAR_RAYS values each in [0, 1]; the quit return path of `step`
instead carries no observation (`None`), which is the correction to the
claim's "every return path". -/
theorem c5_observation_shape (g : Spawn) (dirs : Dirs) (a : Option ℕ)
    (keys : Keys) (events : List Event) (st : Env) (k : ℕ) (out : StepOut)
    (st' : Env) (k' : ℕ) (l : List ℚ)
    (hstep : step g dirs a keys events st k = some (out, st', k'))
    (hobs : out.obs = some l) :
    (l.length = LIDAR_RAYS ∧ ∀ v ∈ l, 0 ≤ v ∧ v ≤ 1) ∧
      ((reset g dirs k).1.length = LIDAR_RAYS ∧
        ∀ v ∈ (reset g dirs k).1, 0 ≤ v ∧ v ≤ 1) := by
  constructor
  · by_cases hq : Event.quit ∈ events
    · rw [step_quit g dirs a keys events st k hq] at hstep
      simp only [Option.some.injEq, Prod.mk.injEq] at hstep
      obtain ⟨hout, -, -⟩ := hstep
      rw [← hout] at hobs
      exact Option.noConfusion hobs
    · obtain ⟨st5, k5, hcb, -, -, -, -, hobs', -⟩ :=
        step_no_quit_inv g dirs a keys events st k out st' k' hq hstep
      rw [hobs'] at hobs
      injection hobs with hobs
      rw [← hobs]
      exact get_lidar_shape dirs st'
  · exact get_lidar_shape dirs _

/-- Witness for C5 (amended) at a concrete quiet tick. -/
theorem c5_observation_shape_witness :
    (List.replicate 24 (1 : ℚ)).length = LIDAR_RAYS ∧
      ∀ v ∈ List.replicate 24 (1 : ℚ), 0 ≤ v ∧ v ≤ 1 :=
  (c5_observation_shape gFar dirs0 none ⟨false, false⟩ [] stBase 0 outBase
    stAfter 0 (List.replicate 24 1) stepBase_eval rfl).1

/-- Counterexample to C5 as stated: the quit return path of `step` returns
`None` in the observation slot, not a sequence of 24 floats. -/
theorem c5_counterexample :
    (step gFar dirs0 none ⟨false, false⟩ [Event.quit] stBase 0).map
        (fun r => r.1.obs)
      = some none := by
  decide

/-- C6: on every completed non-quit tick, done is exactly the
circle–circle collision test between the player and the post-update
asteroids, reward is 0.1 on survival and −10.0 on the collision tick, and
the score in info (and the stored score) equals the previous score plus
this tick's reward, terminal tick included. -/
theorem c6_reward_law (g : Spawn) (dirs : Dirs) (a : Option ℕ) (keys : Keys)
    (events : List Event) (st : Env) (k : ℕ) (out : StepOut) (st' : Env)
    (k' : ℕ) (hq : Event.quit ∉ events)
    (hstep : step g dirs a keys events st k = some (out, st', k')) :
    ((∃ ast ∈ st'.asteroids,
        distLe st'.x st'.y ast.x ast.y (st'.radius + ast.radius) = true)
      ↔ out.done = true) ∧
      out.reward = (if out.done then (-10 : ℚ) else 1 / 10) ∧
      out.info = some ⟨st.score + out.reward, !out.done⟩ ∧
      st'.score = st.score + out.reward := by
  obtain ⟨st5, k5, hcb, hdone, hrew, hst', hk', hobs, hinfo⟩ :=
    step_no_quit_inv g dirs a keys events st k out st' k' hq hstep
  obtain ⟨-, -, -, -, h5s, -, -, -⟩ := check_blast_hits_fields _ _ _ _ _ hcb
  obtain ⟨-, -, -, -, hbs, -, -⟩ := move_blasts_fields
    (move_asteroids g (move_player keys (handle_events events st).1) k).1
  obtain ⟨-, -, -, -, has, -, -, -⟩ := move_asteroids_fields g
    (move_player keys (handle_events events st).1) k
  obtain ⟨-, -, hps, -, -, -⟩ := move_player_fields keys
    (handle_events events st).1
  obtain ⟨-, -, -, hes, -, -, -, -⟩ := handle_events_fields events st
  have hscore5 : st5.score = st.score := by rw [h5s, hbs, has, hps, hes]
  have hsc : st'.score = st.score + out.reward := by
    rw [hst']
    show st5.score + out.reward = st.score + out.reward
    rw [hscore5]
  have hcc : check_collisions st' = check_collisions st5 := by
    rw [hst']
    rfl
  refine ⟨?_, ?_, ?_, hsc⟩
  · have hany : check_collisions st' = true ↔
        ∃ ast ∈ st'.asteroids,
          distLe st'.x st'.y ast.x ast.y (st'.radius + ast.radius) = true := by
      unfold check_collisions
      exact List.any_eq_true
    rw [← hany, hcc, ← hdone]
  · rw [hrew, hdone]
  · rw [hinfo, hsc]

/-- Witness for C6 at a concrete quiet tick. -/
theorem c6_reward_law_witness :
    outBase.reward = (if outBase.done then (-10 : ℚ) else 1 / 10) :=
  (c6_reward_law gFar dirs0 none ⟨false, false⟩ [] stBase 0 outBase stAfter 0
    (by decide) stepBase_eval).2.1

/-- A lidar march that starts farther than LIDAR_RANGE from every world
bound, with no asteroids and a unit-bounded direction, never triggers and
reports LIDAR_RANGE. -/
lemma ray_march_far (st : Env) (dx dy : ℚ) (hno : st.asteroids = [])
    (hx1 : LIDAR_RANGE < st.x) (hx2 : LIDAR_RANGE < WIDTH - st.x)
    (hy1 : LIDAR_RANGE < st.y) (hy2 : LIDAR_RANGE < HEIGHT - st.y)
    (hdx : dx ^ 2 ≤ 1) (hdy : dy ^ 2 ≤ 1) :
    ∀ fuel i, fuel + i ≤ lidarSteps →
      ray_march st dx dy fuel i = LIDAR_RANGE := by
  have hdx1 : -1 ≤ dx ∧ dx ≤ 1 := abs_le.mp ((sq_le_one_iff_abs_le_one dx).mp hdx)
  have hdy1 : -1 ≤ dy ∧ dy ≤ 1 := abs_le.mp ((sq_le_one_iff_abs_le_one dy).mp hdy)
  intro fuel
  induction fuel with
  | zero =>
    intro i h
    rfl
  | succ f ih =>
    intro i h
    have hi : (i : ℚ) ≤ 39 := by
      have hi' : i ≤ 39 := by
        unfold lidarSteps at h
        omega
      exact_mod_cast hi'
    have h5i0 : (0 : ℚ) ≤ 5 * i := by positivity
    have hlowx := mul_le_mul_of_nonneg_right hdx1.1 h5i0
    have hhighx := mul_le_mul_of_nonneg_right hdx1.2 h5i0
    have hlowy := mul_le_mul_of_nonneg_right hdy1.1 h5i0
    have hhighy := mul_le_mul_of_nonneg_right hdy1.2 h5i0
    have hmain : ray_march st dx dy (f + 1) i =
        (if st.x + dx * (5 * i) < 0 ∨ WIDTH ≤ st.x + dx * (5 * i) ∨
            st.y + dy * (5 * i) < 0 ∨ HEIGHT ≤ st.y + dy * (5 * i) then
          (5 * i : ℚ)
        else if st.asteroids.any fun ast =>
            distLe (st.x + dx * (5 * i)) (st.y + dy * (5 * i))
              ast.x ast.y ast.radius then
          (5 * i : ℚ)
        else ray_march st dx dy f (i + 1)) := rfl
    simp only [LIDAR_RANGE, WIDTH, HEIGHT] at hx1 hx2 hy1 hy2
    have hcond : ¬(st.x + dx * (5 * (i : ℚ)) < 0 ∨
        WIDTH ≤ st.x + dx * (5 * (i : ℚ)) ∨
        st.y + dy * (5 * (i : ℚ)) < 0 ∨
        HEIGHT ≤ st.y + dy * (5 * (i : ℚ))) := by
      simp only [WIDTH, HEIGHT]
      rintro (hc | hc | hc | hc) <;> linarith
    rw [hmain, if_neg hcond, hno]
    simp only [List.any_nil, Bool.false_eq_true, if_false]
    exact ih (i + 1) (by omega)

/-- C9: from a state with no obstacles and the player farther than
LIDAR_RANGE from every world bound, every sensor ray records the maximum
range, so every normalized observation value equals 1.0. The direction
table satisfies the unit bound that the true cosine/sine table has. -/
theorem c9_lidar_max_range (dirs : Dirs) (st : Env)
    (hno : st.asteroids = [])
    (hx1 : LIDAR_RANGE < st.x) (hx2 : LIDAR_RANGE < WIDTH - st.x)
    (hy1 : LIDAR_RANGE < st.y) (hy2 : LIDAR_RANGE < HEIGHT - st.y)
    (hd : ∀ i, (dirs i).1 ^ 2 ≤ 1 ∧ (dirs i).2 ^ 2 ≤ 1) :
    (∀ i, ray_dist st (dirs i) = LIDAR_RANGE) ∧
      get_lidar dirs st = List.replicate LIDAR_RAYS 1 := by
  have hray : ∀ i, ray_dist st (dirs i) = LIDAR_RANGE := fun i =>
    ray_march_far st (dirs i).1 (dirs i).2 hno hx1 hx2 hy1 hy2
      (hd i).1 (hd i).2 lidarSteps 0 (by norm_num)
  refine ⟨hray, ?_⟩
  rw [List.eq_replicate_iff]
  constructor
  · simp [get_lidar]
  · intro b hb
    simp only [get_lidar, List.mem_map] at hb
    obtain ⟨i, -, rfl⟩ := hb
    rw [hray i]
    norm_num [LIDAR_RANGE]

/-- Witness for C9: player at (400, 301), no asteroids, degenerate
directions. -/
theorem c9_lidar_max_range_witness :
    (∀ i, ray_dist { stBase with y := 301 } (dirs0 i) = LIDAR_RANGE) ∧
      get_lidar dirs0 { stBase with y := 301 }
        = List.replicate LIDAR_RAYS 1 :=
  c9_lidar_max_range dirs0 { stBase with y := 301 } rfl (by decide)
    (by decide) (by decide) (by decide) (by decide)

/-- Bool test singling out the asteroids `_move_asteroids` replaces: the
list comprehension keeps `a` iff `a.y - a.radius ≤ HEIGHT`. -/
def offscreen (a : Asteroid) : Bool := decide (HEIGHT < a.y - a.radius)

lemma move_asteroids_go_get? (g : Spawn) :
    ∀ (l : List Asteroid) (k i : ℕ),
      ((move_asteroids_go g l k).1)[i]? =
        (l[i]?).map fun a =>
          if offscreen a = true
          then g (k + (l.take i).countP offscreen)
          else a := by
  intro l
  induction l with
  | nil =>
    intro k i
    simp [move_asteroids_go]
  | cons a rest ih =>
    intro k i
    have hgo : move_asteroids_go g (a :: rest) k =
        (if a.y - a.radius ≤ HEIGHT then
          (a :: (move_asteroids_go g rest k).1, (move_asteroids_go g rest k).2)
        else
          (g k :: (move_asteroids_go g rest (k + 1)).1,
            (move_asteroids_go g rest (k + 1)).2)) := rfl
    by_cases hkeep : a.y - a.radius ≤ HEIGHT
    · rw [hgo, if_pos hkeep]
      have hoff : offscreen a = false := by
        unfold offscreen
        simp only [decide_eq_false_iff_not, not_lt]
        exact hkeep
      cases i with
      | zero => simp [hoff]
      | succ j =>
        simp only [List.cons, List.getElem?_cons_succ, List.take_succ_cons,
          List.countP_cons, hoff, Bool.false_eq_true, if_false]
        rw [ih k j]
        simp
    · rw [hgo, if_neg hkeep]
      have hoff : offscreen a = true := by
        unfold offscreen
        simp only [decide_eq_true_eq]
        exact lt_of_not_ge hkeep
      cases i with
      | zero => simp [hoff]
      | succ j =>
        simp only [List.cons, List.getElem?_cons_succ, List.take_succ_cons,
          List.countP_cons, hoff, if_true]
        rw [ih (k + 1) j]
        have harith : ∀ c : ℕ, k + (c + 1) = k + 1 + c := by omega
        cases hrj : rest[j]? with
        | none => rfl
        | some b =>
          simp only [Option.map_some']
          rw [harith ((rest.take j).countP offscreen)]

/-- C4 (amended): after every obstacle advances by its speed, the obstacle
at each index is kept exactly when its trailing (top) edge `y - radius`
has not passed the bottom bound, and otherwise it is replaced in that same
tick by the next fresh spawn from the same spawn source `reset` uses; the
population size is unchanged. (The corrected detection edge is
`y - radius`, the top of the circle, not `y + radius`.) -/
theorem c4_offscreen_replacement (g : Spawn) (st : Env) (k : ℕ) (i : ℕ) :
    ((move_asteroids g st k).1.asteroids.length = st.asteroids.length) ∧
    ((move_asteroids g st k).1.asteroids)[i]? =
      (((st.asteroids.map fun a => { a with y := a.y + a.speed })[i]?).map
        fun a =>
          if offscreen a = true
          then g (k + ((st.asteroids.map fun a => { a with y := a.y + a.speed }).take
              i).countP offscreen)
          else a) := by
  constructor
  · exact (move_asteroids_fields g st k).2.2.2.2.2.2.2
  · exact move_asteroids_go_get? g
      (st.asteroids.map fun a => { a with y := a.y + a.speed }) k i

/-- Concrete state for the C4 counterexample: one asteroid whose bottom
edge will pass the bottom bound this tick while its top edge does not. -/
def stC4 : Env := { stBase with asteroids := [⟨400, 603, 30, 2⟩] }

/-- Counterexample to C4 as stated: after the move the asteroid sits at
y = 605 with radius 30, so its leading (bottom) edge 635 has passed
HEIGHT = 600, yet `_move_asteroids` keeps it unchanged — no replacement
happens (no spawn is consumed and the fresh spawn differs from it). The
code replaces only when `y - radius > HEIGHT`. -/
theorem c4_counterexample :
    (move_asteroids gFar stC4 0).1.asteroids = [⟨400, 605, 30, 2⟩] ∧
      (move_asteroids gFar stC4 0).2 = 0 ∧
      HEIGHT < 605 + 30 ∧
      (⟨400, 605, 30, 2⟩ : Asteroid) ≠ gFar 0 := by
  refine ⟨by decide, by decide, by norm_num [HEIGHT], by decide⟩

/-- C3 (amended): projectiles are removed from the live list exactly by
the top-bound rule — `_move_blasts` advances each by 7 and drops those
with y ≤ 0 — and hit resolution never removes a projectile: a completed
`_check_blast_hits` returns the projectile list unchanged even when hits
were scored (the struck obstacles are still replaced). -/
theorem c3_blast_lifecycle (g : Spawn) (st : Env) (k : ℕ) (st' : Env)
    (k' : ℕ) (h : check_blast_hits g st k = some (st', k')) :
    st'.blasts_list = st.blasts_list ∧
      (move_blasts st).blasts_list
        = (st.blasts_list.map fun b => { b with y := b.y - 7 }).filter
            (fun b => decide (0 < b.y)) := by
  obtain ⟨-, -, -, -, -, -, hbl, -⟩ := check_blast_hits_fields g st k st' k' h
  exact ⟨hbl, rfl⟩

/-- Concrete state whose single blast sits inside the single asteroid. -/
def stHit : Env :=
  { stBase with
    blasts := 4
    asteroids := [⟨400, 100, 40, 2⟩]
    blasts_list := [⟨400, 100⟩] }

/-- Witness for C3 (amended): a tick where the blast scores a hit (the
asteroid is replaced by the fresh spawn) and the blast list is unchanged. -/
theorem c3_blast_lifecycle_witness :
    ({ stHit with asteroids := [gFar 0] } : Env).blasts_list
        = stHit.blasts_list ∧
      (move_blasts stHit).blasts_list
        = (stHit.blasts_list.map fun b => { b with y := b.y - 7 }).filter
            (fun b => decide (0 < b.y)) :=
  c3_blast_lifecycle gFar stHit 0 { stHit with asteroids := [gFar 0] } 1
    (by decide)

/-- Concrete state for the C3 counterexample: after this tick's moves the
blast at (400, 100) lies inside the asteroid at (400, 100) of radius 40. -/
def stC3 : Env :=
  { stBase with
    blasts := 4
    asteroids := [⟨400, 98, 40, 2⟩]
    blasts_list := [⟨400, 107⟩] }

/-- Counterexample to C3 as stated: in this completed tick the projectile
ends up within the obstacle's radius — the obstacle is removed and
replaced by the fresh spawn — yet the projectile is NOT removed: it is
still in the live projectile list after `step`. -/
theorem c3_counterexample :
    (step gFar dirs0 none ⟨false, false⟩ [] stC3 0).map
        (fun r => (r.2.1.blasts_list, r.2.1.asteroids))
      = some ([⟨400, 100⟩], [⟨50, -300, 20, 2⟩]) ∧
      distLe 400 100 400 100 40 = true ∧
      stC3.asteroids = [⟨400, 98, 40, 2⟩] := by
  exact ⟨by decide, by decide, rfl⟩

/-- Concrete state for C1: eight asteroids; the first one will, after this
tick's moves, contain both live projectiles at once. -/
def stC1 : Env := { stBase with
  blasts := 3
  asteroids := [⟨400, 98, 40, 2⟩, ⟨700, 0, 20, 2⟩, ⟨650, -50, 20, 2⟩,
    ⟨600, -100, 20, 2⟩, ⟨550, -150, 20, 2⟩, ⟨100, -200, 20, 2⟩,
    ⟨150, -250, 20, 2⟩, ⟨200, -300, 20, 2⟩]
  blasts_list := [⟨400, 107⟩, ⟨400, 117⟩] }

/-- C1 failing run: with two projectiles inside the same obstacle's
radius, `_check_blast_hits` records that obstacle twice; the second
`list.remove` no longer finds it and raises `ValueError` (modelled as
`none`), so `step` does not complete at all — in particular it does not
complete with the obstacle count unchanged. -/
theorem c1_double_hit_raises :
    step gFar dirs0 none ⟨false, false⟩ [] stC1 0 = none ∧
      stC1.asteroids.length = ASTEROID_COUNT := by
  exact ⟨by decide, by decide⟩

/-- C10: `step` never reads its `action` argument, so its whole result —
observation, reward, done, info and successor state — is identical for any
two action values (`none`, a documented code, or garbage). Shooting comes
only from the keyboard events. -/
theorem c10_action_independence (g : Spawn) (dirs : Dirs) (a1 a2 : Option ℕ)
    (keys : Keys) (events : List Event) (st : Env) (k : ℕ) :
    step g dirs a1 keys events st k = step g dirs a2 keys events st k := rfl

end AsteroidGame
